import Mathlib

/-!
Verification of the ckb-cobuild transaction-authorization engine.

The definitions below shallowly embed the Rust sources of the
`ckb-transaction-cobuild` crate: `utils.rs` (script-hash cache and range
queries), `otx.rs` (flag parsing, the syscall-based OTX scanner and message
iterator), `sighashall.rs` (SighashAll message fetching) and `lib.rs`
(the `cobuild_entry` OTX state machine).  Machine integers (`u32`) are
modelled as `Nat` with an explicit `% 2^32` at every `u32` addition site;
byte strings are `List Nat`; fallible code returns `Except Error`.
Digests produced by the keyed blake2b hash (an external primitive) are
abstracted as values recording exactly the content they commit to.
-/

namespace Cobuild

/-- A 32-byte hash value (script hash), modelled as its byte list. -/
abbrev Hash := List Nat

/-- A seal: a signature-like uninterpreted blob. -/
abbrev Seal := List Nat

/-- From `error.rs`: the error enumeration of the crate (payloads of `Sys` and
`LazyReader` are external and dropped). -/
inductive Error where
  | Sys
  | LazyReader
  | MoleculeEncoding
  | WrongSighashAll
  | WrongWitnessLayout
  | WrongOtxStart
  | WrongScriptType
  | WrongOtx
  | NoSealFound
  | AuthError
  | ScriptHashAbsent
  | WrongCount
  | InvalidOtxFlag
deriving DecidableEq, Repr

deriving instance DecidableEq for Except

/-- Wrapping 32-bit addition: `u32` `+` in the source. -/
def u32add (a b : Nat) : Nat := (a + b) % 4294967296

/-! ## `utils.rs`: the script-hash cache -/

/-- From `utils.rs`: `ScriptType`. -/
inductive ScriptType where
  | InputLock
  | InputType
  | OutputType
deriving DecidableEq, Repr

/-- From `utils.rs`: `ScriptLocation`, the per-role occurrence index lists. -/
structure ScriptLocation where
  input_lock : List Nat
  input_type : List Nat
  output_type : List Nat
deriving DecidableEq, Repr

/-- The `BTreeMap<[u8;32], ScriptLocation>` cache, modelled as an
association list with distinct keys (only lookup and entry-update are used). -/
abbrev Cache := List (Hash × ScriptLocation)

/-- Lookup, as `BTreeMap::get`. -/
def cacheGet (c : Cache) (h : Hash) : Option ScriptLocation :=
  match c with
  | [] => none
  | (k, v) :: rest => if k = h then some v else cacheGet rest h

/-- Update, as `BTreeMap::entry(h).and_modify(f).or_insert(init)`. -/
def cacheUpdate (c : Cache) (h : Hash) (f : ScriptLocation → ScriptLocation)
    (init : ScriptLocation) : Cache :=
  match c with
  | [] => [(h, init)]
  | (k, v) :: rest =>
    if k = h then (k, f v) :: rest else (k, v) :: cacheUpdate rest h f init

/-- The occurrence list of a location for one role. -/
def locationList (loc : ScriptLocation) (ty : ScriptType) : List Nat :=
  match ty with
  | .InputLock => loc.input_lock
  | .InputType => loc.input_type
  | .OutputType => loc.output_type

/-- From `utils.rs`: `is_script_exist`. -/
def is_script_exist (c : Cache) (h : Hash) (ty : ScriptType) : Bool :=
  match cacheGet c h with
  | none => false
  | some loc => !(locationList loc ty).isEmpty

/-- From `utils.rs`: `is_script_included`, translated exactly as written,
including the `!` in front of `.iter().any(..)` on the occurrence list of
each role. -/
def is_script_included (c : Cache) (h : Hash) (ty : ScriptType)
    (start_index end_index : Nat) : Bool :=
  match cacheGet c h with
  | none => false
  | some loc =>
    !(locationList loc ty).any (fun loc => start_index ≤ loc && loc < end_index)

/-- Follows the words of the spec (§4.2 `included_in_range`): true iff the
hash has an occurrence under the role with index in the half-open range
`[s, e)`. -/
def included_in_range_spec (c : Cache) (h : Hash) (ty : ScriptType)
    (s e : Nat) : Bool :=
  match cacheGet c h with
  | none => false
  | some loc => (locationList loc ty).any (fun loc => s ≤ loc && loc < e)

/-! ## `otx.rs`: flag parsing -/

/-- From `otx.rs`: `OtxDynamicConfigs`. -/
structure OtxDynamicConfigs where
  dynamic_inputs : Bool
  dynamic_outputs : Bool
  dynamic_cell_deps : Bool
  dynamic_header_deps : Bool
deriving DecidableEq, Repr

/-- From `otx.rs`: `parse_otx_flag` (the `TryFrom<u8>` conversion used on the
`Otx` flag byte). -/
def parse_otx_flag (flag : Nat) : Except Error OtxDynamicConfigs :=
  let dynamic_inputs := (flag &&& 0b00000001) != 0
  let dynamic_outputs := (flag &&& 0b00000010) != 0
  let dynamic_cell_deps := (flag &&& 0b00000100) != 0
  let dynamic_header_deps := (flag &&& 0b00001000) != 0
  if (flag &&& 0b11110000) != 0 then
    .error .InvalidOtxFlag
  else
    .ok ⟨dynamic_inputs, dynamic_outputs, dynamic_cell_deps, dynamic_header_deps⟩

/-! ## The witness layout data model -/

/-- A declared action inside a `Message` (target script type code, target
script hash, payload data). -/
structure Action where
  script_type : Nat
  script_hash : Hash
  data : List Nat
deriving DecidableEq, Repr

/-- A `Message`: a vector of declared actions. -/
structure Message where
  actions : List Action
deriving DecidableEq, Repr

/-- One `SealPair`: `(script_hash, seal)`. -/
abbrev SealPair := Hash × Seal

/-- The fields of an `OtxStart` witness: the four starting offsets. -/
structure OtxStartData where
  start_input_cell : Nat
  start_output_cell : Nat
  start_cell_deps : Nat
  start_header_deps : Nat
deriving DecidableEq, Repr

/-- The fields of an `Otx` witness (all counts are `u32` in the wire format). -/
structure OtxData where
  flag : Nat
  fixed_input_cells : Nat
  fixed_output_cells : Nat
  fixed_cell_deps : Nat
  fixed_header_deps : Nat
  dynamic_input_cells : Nat
  dynamic_output_cells : Nat
  dynamic_cell_deps : Nat
  dynamic_header_deps : Nat
  message : Message
  seals : List SealPair
deriving DecidableEq, Repr

/-- The `WitnessLayout` tagged union. -/
inductive WitnessLayout where
  | sighashAll (message : Message) (sl : Seal)
  | sighashAllOnly (sl : Seal)
  | otxStart (s : OtxStartData)
  | otx (o : OtxData)
deriving DecidableEq, Repr

/-- A classified witness: `none` when the raw witness does not decode as a
`WitnessLayout` (legacy format). -/
abbrev ClassifiedWitness := Option WitnessLayout

def isOtxW : ClassifiedWitness → Bool
  | some (.otx _) => true
  | _ => false

def isOtxStartW : ClassifiedWitness → Bool
  | some (.otxStart _) => true
  | _ => false

/-- A witness that is neither an `Otx` nor an `OtxStart` (it may be a
`SighashAll`/`SighashAllOnly` variant or an undecodable legacy witness). -/
def neutralW (w : ClassifiedWitness) : Bool := !isOtxW w && !isOtxStartW w

/-! ## `sighashall.rs`: `fetch_message` -/

/-- The message carried by a witness that decodes as `SighashAll`. -/
def sighash_message : ClassifiedWitness → Option Message
  | some (.sighashAll m _) => some m
  | _ => none

/-- All messages of witnesses decoding as `SighashAll`, in witness order
(the `filter_map` of `fetch_message`). -/
def sighash_messages (ws : List ClassifiedWitness) : List Message :=
  ws.filterMap sighash_message

/-- From `sighashall.rs`: `fetch_message`, matching on the first two elements
of the filtered iterator exactly as `match (iter.next(), iter.next())` does. -/
def fetch_message (ws : List ClassifiedWitness) : Except Error (Option Message) :=
  match (sighash_messages ws).get? 0, (sighash_messages ws).get? 1 with
  | some m, none => .ok (some m)
  | none, none => .ok none
  | _, _ => .error .WrongWitnessLayout

/-! ## `otx.rs`: the syscall-based OTX start scanner -/

/-- The loop body state of `otx.rs` `fetch_otx_start`: accumulator holding the
found `OtxStart` (with its index) and the current `end_index`. -/
def fetchOtxStartGo : List ClassifiedWitness → Nat → Option (OtxStartData × Nat) →
    Nat → Except Error (Option (OtxStartData × Nat) × Nat)
  | [], _, acc, endIdx => .ok (acc, endIdx)
  | w :: rest, i, acc, endIdx =>
    match w with
    | some (.otxStart s) =>
      match acc with
      | none => fetchOtxStartGo rest (i + 1) (some (s, i)) i
      | some _ => .error .WrongWitnessLayout
    | some (.otx _) =>
      if acc.isNone || endIdx + 1 != i then .error .WrongWitnessLayout
      else fetchOtxStartGo rest (i + 1) acc i
    | _ => fetchOtxStartGo rest (i + 1) acc endIdx

/-- From `otx.rs`: `fetch_otx_start` (the private syscall-based scanner used
by `parse_otx_message`): walks all witnesses, requires a unique `OtxStart`,
contiguous `Otx` entries, and finally `end_index > 0`. -/
def fetch_otx_start (ws : List ClassifiedWitness) :
    Except Error (OtxStartData × Nat) :=
  match fetchOtxStartGo ws 0 none 0 with
  | .error e => .error e
  | .ok (some (s, startIdx), endIdx) =>
    if endIdx > 0 then .ok (s, startIdx) else .error .WrongOtxStart
  | .ok (none, _) => .error .WrongOtxStart

/-! ## The transaction view

`lib.rs` reads the transaction through host accessors; the embedding keeps
exactly the per-index data those accessors return. -/

/-- The immutable transaction data visible to the verification run. -/
structure Tx where
  /-- Result of `load_cell_lock_hash(i, Source::Input)` for each input index. -/
  input_lock_hashes : List Hash
  /-- Result of `load_cell_type_hash(i, Source::Input)`; absent type script is `none`. -/
  input_type_hashes : List (Option Hash)
  /-- Result of `load_cell_type_hash(i, Source::Output)`. -/
  output_type_hashes : List (Option Hash)
  cell_deps_len : Nat
  header_deps_len : Nat
  /-- The classified witnesses (output of `parse_witness_layouts`). -/
  witnesses : List ClassifiedWitness
  /-- Whether every witness of the current script group beyond the first is
  empty (the `check_others_in_group` input). -/
  group_rest_empty : Bool
  /-- The first witness of the current script group, classified. -/
  group_first_witness : ClassifiedWitness
deriving DecidableEq, Repr

/-- From `utils.rs`: `cache_script_hashes`, one linear scan per role, pushing
each occurrence index in scan order. -/
def cache_script_hashes (tx : Tx) : Cache :=
  let c1 := tx.input_lock_hashes.enum.foldl
    (fun c p =>
      cacheUpdate c p.2 (fun loc => { loc with input_lock := loc.input_lock ++ [p.1] })
        ⟨[p.1], [], []⟩) []
  let c2 := tx.input_type_hashes.enum.foldl
    (fun c p =>
      match p.2 with
      | none => c
      | some h =>
        cacheUpdate c h (fun loc => { loc with input_type := loc.input_type ++ [p.1] })
          ⟨[], [p.1], []⟩) c1
  tx.output_type_hashes.enum.foldl
    (fun c p =>
      match p.2 with
      | none => c
      | some h =>
        cacheUpdate c h (fun loc => { loc with output_type := loc.output_type ++ [p.1] })
          ⟨[], [], [p.1]⟩) c2

/-! ## Signing message hashes -/

/-- The `OtxSigningRange` value object (lazy-reader generation / spec §3). -/
structure OtxSigningRange where
  input_start : Nat
  inputs_count : Nat
  output_start : Nat
  outputs_count : Nat
  cell_dep_start : Nat
  cell_deps_count : Nat
  header_dep_start : Nat
  header_deps_count : Nat
deriving DecidableEq, Repr

/-- A signing-message digest.  The keyed blake2b primitive is external to the
repository; a digest is abstracted as the content it canonically commits to
(mode tag, message, and — in OTX mode — the committed sub-ranges). -/
inductive SMH where
  | otxDigest (m : Message) (r : OtxSigningRange)
  | sighashDigest (m : Option Message)
deriving DecidableEq, Repr

/-- The pluggable verifier capability (`Callback::invoke`). -/
abbrev Verifier := Seal → SMH → Except Error Unit

/-- Modelled from the spec: `generate_otx_smh` of the lazy-reader generation is
not under `src/` (only the inline hasher of the syscall generation is).  Per §4.3 it
deterministically absorbs the message and exactly the declared sub-ranges of
inputs, outputs, cell-deps and header-deps, and the lazy accessors fail with a
host error when a declared range reaches past the end of the corresponding
array.  The digest itself is abstracted as its committed content. -/
def generate_otx_smh (tx : Tx) (m : Message) (r : OtxSigningRange) :
    Except Error SMH :=
  if r.input_start + r.inputs_count ≤ tx.input_lock_hashes.length
      ∧ r.output_start + r.outputs_count ≤ tx.output_type_hashes.length
      ∧ r.cell_dep_start + r.cell_deps_count ≤ tx.cell_deps_len
      ∧ r.header_dep_start + r.header_deps_count ≤ tx.header_deps_len then
    .ok (.otxDigest m r)
  else
    .error .Sys

/-- Modelled from the spec: the whole-transaction signing message hash of §4.3
(sighash-all mode with or without a message), digest abstracted as its
committed content. -/
def generate_sighash_smh (m : Option Message) : SMH :=
  .sighashDigest m

/-! ## `utils.rs` `check_message` and the whole-transaction path -/

/-- The loop body of `utils.rs` `check_message` over the declared actions. -/
def checkActions (cache : Cache) : List Action → Except Error Unit
  | [] => .ok ()
  | a :: rest =>
    match (match a.script_type with
      | 0 => Except.ok ScriptType.InputLock
      | 1 => Except.ok ScriptType.InputType
      | 2 => Except.ok ScriptType.OutputType
      | _ => Except.error Error.WrongScriptType) with
    | .error e => .error e
    | .ok ty =>
      if is_script_exist cache a.script_hash ty then checkActions cache rest
      else .error .ScriptHashAbsent

/-- From `utils.rs`: `check_message` — the target script hash of every
declared action must exist under its declared role. -/
def check_message (cache : Cache) (m : Message) : Except Error Unit :=
  checkActions cache m.actions

/-- Modelled from the spec: the lazy-reader generation `fetch_seal` is not
under `src/`; per §4.7 the seal is taken from the first witness of the script
group,
which must decode as `SighashAll` or `SighashAllOnly`. -/
def fetch_seal_of_group (tx : Tx) : Except Error Seal :=
  match tx.group_first_witness with
  | some (.sighashAll _ sl) => .ok sl
  | some (.sighashAllOnly sl) => .ok sl
  | _ => .error .MoleculeEncoding

/-- Modelled from the spec: `cobuild_normal_entry` (the whole-transaction path
driver called by `cobuild_entry`) is not under `src/`.  Per §4.7: group
witnesses beyond the first must be empty, at most one `SighashAll` witness is
located transaction-wide, declared actions are validated against the cache,
the whole-transaction hash is generated and the verifier is invoked once with
the seal of the group.  The returned list records the verifier invocations. -/
def cobuild_normal_entry (tx : Tx) (cache : Cache) (v : Verifier) :
    Except Error (List (Seal × SMH)) :=
  if !tx.group_rest_empty then .error .WrongWitnessLayout
  else
    match fetch_message tx.witnesses with
    | .error e => .error e
    | .ok m =>
      match (match m with
        | some msg => check_message cache msg
        | none => Except.ok ()) with
      | .error e => .error e
      | .ok _ =>
        let smh := generate_sighash_smh m
        match fetch_seal_of_group tx with
        | .error e => .error e
        | .ok sl =>
          match v sl smh with
          | .error e => .error e
          | .ok _ => .ok [(sl, smh)]

/-! ## `lib.rs`: the OTX state machine -/

/-- From `lib.rs`: `CobuildState`. -/
structure CobuildState where
  otx_start_index : Nat
  input_start : Nat
  input_end : Nat
  output_end : Nat
  cell_dep_end : Nat
  header_dep_end : Nat
deriving DecidableEq, Repr

/-- Forward seal-list scan: the seal of the first matching pair
(`for index in 0..len`, break on first match). -/
def findSealFwd (seals : List SealPair) (h : Hash) : Option Seal :=
  (seals.find? (fun p => p.1 = h)).map (fun p => p.2)

/-- Reverse seal-list scan: the seal of the last matching pair
(`for index in (0..len).rev()`, break on first match). -/
def findSealRev (seals : List SealPair) (h : Hash) : Option Seal :=
  (seals.reverse.find? (fun p => p.1 = h)).map (fun p => p.2)

/-- The fixed signing range of one OTX (lib.rs lines building the first
`OtxSigningRange`): fixed counts in all four categories. -/
def fixedRange (st : CobuildState) (o : OtxData) : OtxSigningRange :=
  { input_start := st.input_end
    inputs_count := o.fixed_input_cells
    output_start := st.output_end
    outputs_count := o.fixed_output_cells
    cell_dep_start := st.cell_dep_end
    cell_deps_count := o.fixed_cell_deps
    header_dep_start := st.header_dep_end
    header_deps_count := o.fixed_header_deps }

/-- The dynamic signing range of one OTX: fixed+dynamic inputs, fixed counts
for the other three categories. -/
def dynamicRange (st : CobuildState) (o : OtxData) : OtxSigningRange :=
  { fixedRange st o with
    inputs_count := u32add o.fixed_input_cells o.dynamic_input_cells }

/-- The full index range one OTX claims in each category (fixed+dynamic),
recorded for the partition invariant. -/
def claimedRange (st : CobuildState) (o : OtxData) : OtxSigningRange :=
  { input_start := st.input_end
    inputs_count := u32add o.fixed_input_cells o.dynamic_input_cells
    output_start := st.output_end
    outputs_count := u32add o.fixed_output_cells o.dynamic_output_cells
    cell_dep_start := st.cell_dep_end
    cell_deps_count := u32add o.fixed_cell_deps o.dynamic_cell_deps
    header_dep_start := st.header_dep_end
    header_deps_count := u32add o.fixed_header_deps o.dynamic_header_deps }

/-- Cursor advancement of one processed OTX (`state.*_end += fixed + dynamic`,
performed by both the skip branch and the post-verification step). -/
def advanceState (st : CobuildState) (o : OtxData) : CobuildState :=
  { st with
    input_end := u32add st.input_end (u32add o.fixed_input_cells o.dynamic_input_cells)
    output_end := u32add st.output_end (u32add o.fixed_output_cells o.dynamic_output_cells)
    cell_dep_end := u32add st.cell_dep_end (u32add o.fixed_cell_deps o.dynamic_cell_deps)
    header_dep_end := u32add st.header_dep_end (u32add o.fixed_header_deps o.dynamic_header_deps) }

/-- The `lock_hash_existing_in_fixed` test of the loop: membership of the
current script hash in the fixed input sub-range `[input_end,
input_end + fixed_input_cells)`, through `is_script_included`. -/
def fixedIncluded (cache : Cache) (csh : Hash) (st : CobuildState) (o : OtxData) : Bool :=
  is_script_included cache csh .InputLock st.input_end
    (u32add st.input_end o.fixed_input_cells)

/-- The `lock_hash_existing_in_dynamic` test of the loop: membership in the
dynamic input sub-range starting at `input_end + fixed_input_cells`. -/
def dynamicIncluded (cache : Cache) (csh : Hash) (st : CobuildState) (o : OtxData) : Bool :=
  is_script_included cache csh .InputLock
    (u32add st.input_end o.fixed_input_cells)
    (u32add (u32add st.input_end o.fixed_input_cells) o.dynamic_input_cells)

/-- One range verification of the loop: generate the signing-message hash for
`rng`, scan the seal list (forward when `rev` is false, reverse otherwise) for
the first matching script hash, and invoke the verifier; a missing seal is
`NoSealFound`.  Returns the invocation performed. -/
def sealVerify (tx : Tx) (csh : Hash) (v : Verifier) (o : OtxData)
    (rng : OtxSigningRange) (rev : Bool) : Except Error (List (Seal × SMH)) :=
  match generate_otx_smh tx o.message rng with
  | .error e => .error e
  | .ok smh =>
    match (if rev then findSealRev o.seals csh else findSealFwd o.seals csh) with
    | none => .error .NoSealFound
    | some sl =>
      match v sl smh with
      | .error e => .error e
      | .ok _ => .ok [(sl, smh)]

/-- Processing of a single `Otx` witness inside the `cobuild_entry` loop:
flag parsing, count validation, fixed/dynamic membership tests, the two
seal searches and verifier invocations, and cursor advancement.  Returns the
new state, the verifier invocations made, and the claimed range. -/
def otxStep (tx : Tx) (cache : Cache) (csh : Hash) (v : Verifier) (o : OtxData)
    (st : CobuildState) :
    Except Error (CobuildState × List (Seal × SMH) × OtxSigningRange) :=
  match parse_otx_flag o.flag with
  | .error e => .error e
  | .ok cfg =>
    if o.fixed_input_cells == 0 && o.fixed_output_cells == 0
        && o.fixed_cell_deps == 0 && o.fixed_header_deps == 0 then
      .error .WrongCount
    else if (!cfg.dynamic_inputs && o.dynamic_input_cells != 0)
        || (!cfg.dynamic_outputs && o.dynamic_output_cells != 0)
        || (!cfg.dynamic_cell_deps && o.dynamic_cell_deps != 0)
        || (!cfg.dynamic_header_deps && o.dynamic_header_deps != 0) then
      .error .WrongCount
    else if !fixedIncluded cache csh st o && !dynamicIncluded cache csh st o then
      .ok (advanceState st o, [], claimedRange st o)
    else
      match (if fixedIncluded cache csh st o then
          sealVerify tx csh v o (fixedRange st o) false else .ok []) with
      | .error e => .error e
      | .ok l1 =>
        match (if dynamicIncluded cache csh st o then
            sealVerify tx csh v o (dynamicRange st o) true else .ok []) with
        | .error e => .error e
        | .ok l2 => .ok (advanceState st o, l1 ++ l2, claimedRange st o)

/-- The outcome of the `cobuild_entry` OTX loop. -/
structure LoopResult where
  state : CobuildState
  /-- Value of `otx_witness_end_index` after the loop. -/
  endIdx : Nat
  /-- The claimed range of each processed OTX, in processing order. -/
  claimed : List OtxSigningRange
  /-- The verifier invocations, in order. -/
  log : List (Seal × SMH)
deriving DecidableEq, Repr

/-- The `for witness_index in otx_start_index + 1..witness_layouts.len()` loop
of `cobuild_entry`: `i` is the index of the head of the remaining witness
list.  Undecodable and non-`Otx` witnesses break the loop. -/
def otxLoop (tx : Tx) (cache : Cache) (csh : Hash) (v : Verifier) :
    List ClassifiedWitness → Nat → CobuildState → Except Error LoopResult
  | [], i, st => .ok ⟨st, i - 1, [], []⟩
  | w :: rest, i, st =>
    match w with
    | some (.otx o) =>
      match otxStep tx cache csh v o st with
      | .error e => .error e
      | .ok (st1, inv, rng) =>
        match otxLoop tx cache csh v rest (i + 1) st1 with
        | .error e => .error e
        | .ok res => .ok ⟨res.state, res.endIdx, rng :: res.claimed, inv ++ res.log⟩
    | _ => .ok ⟨st, i, [], []⟩

/-- Modelled from the spec: the lazy-reader generation `fetch_otx_start` used
by `cobuild_entry` is not under `src/` (only the syscall generation is).  Per
§4.4 it locates the at-most-one `OtxStart` (a second occurrence ⇒
`WrongWitnessLayout`) and reports "no OTX" (`ok none`) when absent;
`Otx` placement is enforced separately by the post-loop check of `cobuild_entry`. -/
def fetchLazyGo : List ClassifiedWitness → Nat → Option (OtxStartData × Nat) →
    Except Error (Option (OtxStartData × Nat))
  | [], _, acc => .ok acc
  | w :: rest, i, acc =>
    match w with
    | some (.otxStart s) =>
      match acc with
      | none => fetchLazyGo rest (i + 1) (some (s, i))
      | some _ => .error .WrongWitnessLayout
    | _ => fetchLazyGo rest (i + 1) acc

/-- Modelled from the spec: see `fetchLazyGo`. -/
def fetch_otx_start_lazy (ws : List ClassifiedWitness) :
    Except Error (Option (OtxStartData × Nat)) :=
  fetchLazyGo ws 0 none

/-- The post-loop stray-`Otx` scan of `cobuild_entry`: true iff some witness
outside `[i, j)` is an `Otx` variant. -/
def stray_otx_exists (ws : List ClassifiedWitness) (i j : Nat) : Bool :=
  ws.enum.any (fun p => (decide (p.1 < i) || decide (j ≤ p.1)) && isOtxW p.2)

/-- The residual scan (step 8 of `cobuild_entry`): an input outside
`[input_start, input_end)` locked by the current script. -/
def residual_found (tx : Tx) (csh : Hash) (is ie : Nat) : Bool :=
  tx.input_lock_hashes.enum.any
    (fun p => (decide (p.1 < is) || decide (ie ≤ p.1)) && p.2 = csh)

/-- From `lib.rs`: `cobuild_entry`.  Returns the activation flag together with
the list of verifier invocations made (instrumentation of `verifier.invoke`). -/
def cobuild_entry (tx : Tx) (csh : Hash) (v : Verifier) :
    Except Error (Bool × List (Seal × SMH)) :=
  let ws := tx.witnesses
  let activated := ws.any (fun w => w.isSome)
  if !activated then .ok (false, [])
  else
    let cache := cache_script_hashes tx
    match fetch_otx_start_lazy ws with
    | .error e => .error e
    | .ok none =>
      match cobuild_normal_entry tx cache v with
      | .error e => .error e
      | .ok log => .ok (true, log)
    | .ok (some (s, startIdx)) =>
      let st0 : CobuildState :=
        { otx_start_index := startIdx
          input_start := s.start_input_cell
          input_end := s.start_input_cell
          output_end := s.start_output_cell
          cell_dep_end := s.start_cell_deps
          header_dep_end := s.start_header_deps }
      match otxLoop tx cache csh v (ws.drop (startIdx + 1)) (startIdx + 1) st0 with
      | .error e => .error e
      | .ok res =>
        let j := if res.endIdx == ws.length - 1 then ws.length else res.endIdx
        if stray_otx_exists ws startIdx j then .error .WrongWitnessLayout
        else if residual_found tx csh res.state.input_start res.state.input_end then
          match cobuild_normal_entry tx cache v with
          | .error e => .error e
          | .ok nlog => .ok (true, res.log ++ nlog)
        else .ok (true, res.log)

/-! ## `otx.rs`: `OtxMessageIter` -/

/-- The counters carried by `OtxMessageIter` across calls to `next`. -/
structure OtxIterState where
  witness_counter : Nat
  input_cell_counter : Nat
  output_cell_counter : Nat
  cell_deps_counter : Nat
  header_deps_counter : Nat
deriving DecidableEq, Repr

/-- The skip-branch counter advancement of `OtxMessageIter::next` for an OTX
whose fixed input range does not contain the current script hash.  Translated
exactly as written: the local `dynamic_*` values are bound from the `fixed_*`
accessors of the OTX, so each counter advances by twice the fixed count. -/
def otxIterSkipAdvance (st : OtxIterState) (o : OtxData) : OtxIterState :=
  { st with
    input_cell_counter :=
      st.input_cell_counter + o.fixed_input_cells + o.fixed_input_cells
    output_cell_counter :=
      st.output_cell_counter + o.fixed_output_cells + o.fixed_output_cells
    cell_deps_counter :=
      st.cell_deps_counter + o.fixed_cell_deps + o.fixed_cell_deps
    header_deps_counter :=
      st.header_deps_counter + o.fixed_header_deps + o.fixed_header_deps }

/-- The matched-branch counter advancement of `OtxMessageIter::next`: each
counter advances by the fixed count only. -/
def otxIterMatchAdvance (st : OtxIterState) (o : OtxData) : OtxIterState :=
  { st with
    input_cell_counter := st.input_cell_counter + o.fixed_input_cells
    output_cell_counter := st.output_cell_counter + o.fixed_output_cells
    cell_deps_counter := st.cell_deps_counter + o.fixed_cell_deps
    header_deps_counter := st.header_deps_counter + o.fixed_header_deps }

/-- Test `QueryIter::new(load_cell_lock_hash, Input).skip(ic).take(n).any(= csh)`. -/
def inputRangeHasHash (tx : Tx) (csh : Hash) (skip take : Nat) : Bool :=
  ((tx.input_lock_hashes.drop skip).take take).any (fun h => h = csh)

/-- From `otx.rs`: `OtxMessageIter::next` walks the remaining witnesses; an `Otx` witness is
either hashed (script hash in its fixed input range — digest abstracted, the
old-generation hasher covers the fixed ranges only) or skipped; any other
witness ends the iteration.  The mutated counters persist in the iterator, so
the final state is returned alongside the optional item. -/
def otxIterGo (tx : Tx) (csh : Hash) :
    List ClassifiedWitness → OtxIterState →
    Option (SMH × List SealPair) × OtxIterState
  | [], st => (none, st)
  | w :: rest, st =>
    match w with
    | some (.otx o) =>
      let st1 := { st with witness_counter := st.witness_counter + 1 }
      if inputRangeHasHash tx csh st1.input_cell_counter o.fixed_input_cells then
        let smh := SMH.otxDigest o.message
          { input_start := st1.input_cell_counter
            inputs_count := o.fixed_input_cells
            output_start := st1.output_cell_counter
            outputs_count := o.fixed_output_cells
            cell_dep_start := st1.cell_deps_counter
            cell_deps_count := o.fixed_cell_deps
            header_dep_start := st1.header_deps_counter
            header_deps_count := o.fixed_header_deps }
        (some (smh, o.seals), otxIterMatchAdvance st1 o)
      else
        otxIterGo tx csh rest (otxIterSkipAdvance st1 o)
    | _ => (none, st)

/-! ## Advancement sums and range chains (for the partition invariant) -/

/-- The total input-cursor advance declared by one witness (fixed + dynamic
input counts of an `Otx`, zero otherwise). -/
def advI : ClassifiedWitness → Nat
  | some (.otx o) => o.fixed_input_cells + o.dynamic_input_cells
  | _ => 0

/-- Output-cursor advance declared by one witness. -/
def advO : ClassifiedWitness → Nat
  | some (.otx o) => o.fixed_output_cells + o.dynamic_output_cells
  | _ => 0

/-- Cell-dep-cursor advance declared by one witness. -/
def advC : ClassifiedWitness → Nat
  | some (.otx o) => o.fixed_cell_deps + o.dynamic_cell_deps
  | _ => 0

/-- Header-dep-cursor advance declared by one witness. -/
def advH : ClassifiedWitness → Nat
  | some (.otx o) => o.fixed_header_deps + o.dynamic_header_deps
  | _ => 0

def sumAdvI (ws : List ClassifiedWitness) : Nat := (ws.map advI).sum
def sumAdvO (ws : List ClassifiedWitness) : Nat := (ws.map advO).sum
def sumAdvC (ws : List ClassifiedWitness) : Nat := (ws.map advC).sum
def sumAdvH (ws : List ClassifiedWitness) : Nat := (ws.map advH).sum

/-- A list of `(start, count)` intervals forms an adjacent chain from `c`:
each interval starts exactly where the previous one ends. -/
def chain1 : Nat → List (Nat × Nat) → Prop
  | _, [] => True
  | c, p :: rest => p.1 = c ∧ chain1 (p.1 + p.2) rest

/-! ## Concrete fixtures -/

/-- A verifier that accepts every seal (used to exercise concrete runs). -/
def okVerifier : Verifier := fun _ _ => .ok ()

/-- A cache holding script hash `[9]` at input-lock index 5 only. -/
def cache1 : Cache := [([9], ⟨[5], [], []⟩)]

/-- OTX with 1 fixed and 1 dynamic input, two seals both carrying script hash
`[2]` (positions 0 and 1). -/
def o2 : OtxData :=
  { flag := 1, fixed_input_cells := 1, fixed_output_cells := 0,
    fixed_cell_deps := 0, fixed_header_deps := 0,
    dynamic_input_cells := 1, dynamic_output_cells := 0,
    dynamic_cell_deps := 0, dynamic_header_deps := 0,
    message := ⟨[]⟩, seals := [([2], [70]), ([2], [71])] }

/-- Transaction whose two inputs are both locked by script hash `[2]`, with
`OtxStart(0,0,0,0)` followed by `o2`: the hash occupies both the fixed input
range `[0,1)` and the dynamic input range `[1,2)` of the OTX. -/
def tx2 : Tx :=
  { input_lock_hashes := [[2], [2]], input_type_hashes := [none, none],
    output_type_hashes := [], cell_deps_len := 0, header_deps_len := 0,
    witnesses := [some (.otxStart ⟨0, 0, 0, 0⟩), some (.otx o2)],
    group_rest_empty := true, group_first_witness := none }

/-- OTX declaring 5 fixed input cells (nothing else). -/
def o3 : OtxData :=
  { flag := 0, fixed_input_cells := 5, fixed_output_cells := 0,
    fixed_cell_deps := 0, fixed_header_deps := 0,
    dynamic_input_cells := 0, dynamic_output_cells := 0,
    dynamic_cell_deps := 0, dynamic_header_deps := 0,
    message := ⟨[]⟩, seals := [] }

/-- Transaction with a single input (lock hash `[1]`) whose only OTX declares
5 fixed inputs; the current script hash `[9]` occurs nowhere. -/
def tx3 : Tx :=
  { input_lock_hashes := [[1]], input_type_hashes := [none],
    output_type_hashes := [], cell_deps_len := 0, header_deps_len := 0,
    witnesses := [some (.otxStart ⟨0, 0, 0, 0⟩), some (.otx o3)],
    group_rest_empty := true, group_first_witness := none }

/-- OTX with 1 fixed input and 2 dynamic inputs. -/
def o4 : OtxData :=
  { flag := 1, fixed_input_cells := 1, fixed_output_cells := 0,
    fixed_cell_deps := 0, fixed_header_deps := 0,
    dynamic_input_cells := 2, dynamic_output_cells := 0,
    dynamic_cell_deps := 0, dynamic_header_deps := 0,
    message := ⟨[]⟩, seals := [] }

/-- Transaction with three inputs locked by `[1]`; the current script hash in
the `o4` scenarios is `[2]`, absent everywhere. -/
def tx4 : Tx :=
  { input_lock_hashes := [[1], [1], [1]],
    input_type_hashes := [none, none, none],
    output_type_hashes := [], cell_deps_len := 0, header_deps_len := 0,
    witnesses := [], group_rest_empty := true, group_first_witness := none }

/-- OTX with all four fixed counts zero and an invalid flag byte (0x10). -/
def o7 : OtxData :=
  { flag := 16, fixed_input_cells := 0, fixed_output_cells := 0,
    fixed_cell_deps := 0, fixed_header_deps := 0,
    dynamic_input_cells := 0, dynamic_output_cells := 0,
    dynamic_cell_deps := 0, dynamic_header_deps := 0,
    message := ⟨[]⟩, seals := [] }

/-- Transaction whose only OTX is `o7`. -/
def tx7 : Tx :=
  { input_lock_hashes := [[1]], input_type_hashes := [none],
    output_type_hashes := [], cell_deps_len := 0, header_deps_len := 0,
    witnesses := [some (.otxStart ⟨0, 0, 0, 0⟩), some (.otx o7)],
    group_rest_empty := true, group_first_witness := none }

/-- Transaction with a single `SighashAllOnly` witness and no `OtxStart`:
exercises the whole-transaction fallback. -/
def txW5 : Tx :=
  { input_lock_hashes := [[3]], input_type_hashes := [none],
    output_type_hashes := [], cell_deps_len := 0, header_deps_len := 0,
    witnesses := [some (.sighashAllOnly [7])],
    group_rest_empty := true, group_first_witness := some (.sighashAllOnly [7]) }

/-- OTX with all four fixed counts zero, a valid flag byte 0x0F and nonzero
dynamic counts in every category. -/
def o7b : OtxData :=
  { flag := 15, fixed_input_cells := 0, fixed_output_cells := 0,
    fixed_cell_deps := 0, fixed_header_deps := 0,
    dynamic_input_cells := 7, dynamic_output_cells := 7,
    dynamic_cell_deps := 7, dynamic_header_deps := 7,
    message := ⟨[]⟩, seals := [] }

/-- Transaction whose only OTX is `o7b`. -/
def tx7b : Tx :=
  { input_lock_hashes := [[1]], input_type_hashes := [none],
    output_type_hashes := [], cell_deps_len := 0, header_deps_len := 0,
    witnesses := [some (.otxStart ⟨0, 0, 0, 0⟩), some (.otx o7b)],
    group_rest_empty := true, group_first_witness := none }

/-- The two-OTX witness run used to exercise the partition invariant. -/
def ws3 : List ClassifiedWitness := [some (.otx o3), some (.otx o3)]

/-- The all-zero initial cursor state. -/
def st0c : CobuildState := ⟨0, 0, 0, 0, 0, 0⟩

/-- The loop result of processing `ws3` from `st0c`. -/
def lr3 : LoopResult :=
  ⟨⟨0, 0, 10, 0, 0, 0⟩, 2,
    [⟨0, 5, 0, 0, 0, 0, 0, 0⟩, ⟨5, 5, 0, 0, 0, 0, 0, 0⟩], []⟩

/-- OTX declaring 2^32 - 5 fixed input cells (nothing else): advancing a
cursor that stands at 10 wraps it down to 5 under `u32` addition. -/
def oOv : OtxData :=
  { flag := 0, fixed_input_cells := 4294967291, fixed_output_cells := 0,
    fixed_cell_deps := 0, fixed_header_deps := 0,
    dynamic_input_cells := 0, dynamic_output_cells := 0,
    dynamic_cell_deps := 0, dynamic_header_deps := 0,
    message := ⟨[]⟩, seals := [] }

/-- Transaction like `tx3` whose OTX run is `o3`, `o3`, `oOv`: the third OTX
wraps the input cursor from 10 down to 5. -/
def txOv : Tx :=
  { input_lock_hashes := [[1]], input_type_hashes := [none],
    output_type_hashes := [], cell_deps_len := 0, header_deps_len := 0,
    witnesses := [some (.otxStart ⟨0, 0, 0, 0⟩), some (.otx o3),
      some (.otx o3), some (.otx oOv)],
    group_rest_empty := true, group_first_witness := none }

/-! ## Helper lemmas -/

theorem u32add_eq {a b : Nat} (h : a + b < 4294967296) : u32add a b = a + b :=
  Nat.mod_eq_of_lt h

theorem neutralW_not_otx {w : ClassifiedWitness} (h : neutralW w = true) :
    isOtxW w = false := by
  cases hx : isOtxW w
  · rfl
  · rw [neutralW, hx] at h; simp at h

theorem neutralW_not_otx_start {w : ClassifiedWitness} (h : neutralW w = true) :
    isOtxStartW w = false := by
  cases hx : isOtxStartW w
  · rfl
  · rw [neutralW, hx] at h; simp [Bool.and_eq_true] at h

/-- A run of neutral witnesses leaves the syscall scanner state unchanged. -/
theorem fetchGo_neutral (ws : List ClassifiedWitness)
    (h : ∀ w ∈ ws, neutralW w = true) :
    ∀ i acc endIdx, fetchOtxStartGo ws i acc endIdx = .ok (acc, endIdx) := by
  induction ws with
  | nil => intro i acc endIdx; rfl
  | cons w rest ih =>
    intro i acc endIdx
    have hw := h w (List.mem_cons_self _ _)
    have hrest : ∀ x ∈ rest, neutralW x = true := fun x hx => h x (List.mem_cons_of_mem _ hx)
    match w with
    | none => simpa [fetchOtxStartGo] using ih hrest (i + 1) acc endIdx
    | some (.sighashAll m sl) => simpa [fetchOtxStartGo] using ih hrest (i + 1) acc endIdx
    | some (.sighashAllOnly sl) => simpa [fetchOtxStartGo] using ih hrest (i + 1) acc endIdx
    | some (.otxStart s) => simp [neutralW, isOtxStartW] at hw
    | some (.otx o) => simp [neutralW, isOtxW] at hw

/-- The syscall scanner walks over a neutral prefix, only advancing the
running index. -/
theorem fetchGo_neutral_walk (pre : List ClassifiedWitness)
    (h : ∀ w ∈ pre, neutralW w = true) :
    ∀ rest i acc endIdx,
      fetchOtxStartGo (pre ++ rest) i acc endIdx =
        fetchOtxStartGo rest (i + pre.length) acc endIdx := by
  induction pre with
  | nil => intro rest i acc endIdx; simp
  | cons w pre1 ih =>
    intro rest i acc endIdx
    have hw := h w (List.mem_cons_self _ _)
    have hpre : ∀ x ∈ pre1, neutralW x = true := fun x hx => h x (List.mem_cons_of_mem _ hx)
    have harith : i + 1 + pre1.length = i + (w :: pre1).length := by
      simp [List.length_cons]; omega
    match w with
    | none =>
      show fetchOtxStartGo (pre1 ++ rest) (i + 1) acc endIdx = _
      rw [ih hpre rest (i + 1) acc endIdx, harith]
    | some (.sighashAll m sl) =>
      show fetchOtxStartGo (pre1 ++ rest) (i + 1) acc endIdx = _
      rw [ih hpre rest (i + 1) acc endIdx, harith]
    | some (.sighashAllOnly sl) =>
      show fetchOtxStartGo (pre1 ++ rest) (i + 1) acc endIdx = _
      rw [ih hpre rest (i + 1) acc endIdx, harith]
    | some (.otxStart s) => simp [neutralW, isOtxStartW] at hw
    | some (.otx o) => simp [neutralW, isOtxW] at hw

/-- The lazy scanner ignores everything but `OtxStart` witnesses. -/
theorem fetchLazyGo_no_start (ws : List ClassifiedWitness)
    (h : ∀ w ∈ ws, isOtxStartW w = false) :
    ∀ i acc, fetchLazyGo ws i acc = .ok acc := by
  induction ws with
  | nil => intro i acc; rfl
  | cons w rest ih =>
    intro i acc
    have hw := h w (List.mem_cons_self _ _)
    have hrest : ∀ x ∈ rest, isOtxStartW x = false := fun x hx => h x (List.mem_cons_of_mem _ hx)
    match w with
    | none => simpa [fetchLazyGo] using ih hrest (i + 1) acc
    | some (.sighashAll m sl) => simpa [fetchLazyGo] using ih hrest (i + 1) acc
    | some (.sighashAllOnly sl) => simpa [fetchLazyGo] using ih hrest (i + 1) acc
    | some (.otx o) => simpa [fetchLazyGo] using ih hrest (i + 1) acc
    | some (.otxStart s) => simp [isOtxStartW] at hw

/-! ## Claim theorems -/

/-- C1: refuted on the code.  `is_script_included` negates the range test: for
the cache holding hash `[9]` exactly at input-lock index 5, the query over
`[5,6)` — which the spec predicate `included_in_range_spec` answers `true` —
returns `false`, and the query over `[0,1)` — spec answer `false` — returns
`true`.  Only the absent-hash case agrees with the spec (last conjunct). -/
theorem c1_is_script_included_negated :
    is_script_included cache1 [9] .InputLock 5 6 = false
      ∧ included_in_range_spec cache1 [9] .InputLock 5 6 = true
      ∧ is_script_included cache1 [9] .InputLock 0 1 = true
      ∧ included_in_range_spec cache1 [9] .InputLock 0 1 = false
      ∧ is_script_included cache1 [7] .InputLock 0 6 = false :=
  ⟨rfl, rfl, rfl, rfl, rfl⟩

/-- C2: refuted on the code.  In `tx2` the current script hash `[2]` occupies
both the fixed input range `[0,1)` and the dynamic input range `[1,2)` of the
single OTX, whose seal list carries `[2]` at positions 0 and 1 — yet
`cobuild_entry` performs zero verifier invocations (empty instrumentation log),
because the inverted `is_script_included` routes the OTX to the skip branch. -/
theorem c2_dual_seal_otx_skipped :
    included_in_range_spec (cache_script_hashes tx2) [2] .InputLock 0 1 = true
      ∧ included_in_range_spec (cache_script_hashes tx2) [2] .InputLock 1 2 = true
      ∧ o2.seals.map Prod.fst = [[2], [2]]
      ∧ cobuild_entry tx2 [2] okVerifier = .ok (true, []) :=
  ⟨rfl, rfl, rfl, rfl⟩

/-- C4: refuted on the code for the `OtxMessageIter` half.  For the OTX `o4`
declaring 1 fixed and 2 dynamic inputs, with the current script hash absent,
the skip branch of the iterator advances the input counter by 2 (fixed read twice)
instead of fixed+dynamic = 3, while the `cobuild_entry` loop advances its
input cursor by 3 as the claim states. -/
theorem c4_iter_skip_advance_uses_fixed_twice :
    otxIterGo tx4 [2] [some (.otx o4)] ⟨0, 0, 0, 0, 0⟩ = (none, ⟨1, 2, 0, 0, 0⟩)
      ∧ o4.fixed_input_cells + o4.dynamic_input_cells = 3
      ∧ otxLoop tx4 (cache_script_hashes tx4) [2] okVerifier
          [some (.otx o4)] 1 ⟨0, 0, 0, 0, 0, 0⟩ =
        .ok ⟨⟨0, 0, 3, 0, 0, 0⟩, 1, [⟨0, 3, 0, 0, 0, 0, 0, 0⟩], []⟩ :=
  ⟨rfl, rfl, rfl⟩

/-- C7: counterexample to the claim as stated.  The OTX `o7` has all four
fixed counts zero but an invalid flag byte (0x10); `cobuild_entry` fails with
`InvalidOtxFlag`, not `WrongCount`, because the flag is parsed first. -/
theorem c7_invalid_flag_preempts_wrong_count :
    cobuild_entry tx7 [2] okVerifier = .error .InvalidOtxFlag
      ∧ Error.InvalidOtxFlag ≠ Error.WrongCount :=
  ⟨rfl, by decide⟩

set_option maxRecDepth 8192 in
/-- C8: confirmed.  For every flag byte, a set high nibble yields
`InvalidOtxFlag` regardless of the low bits, and otherwise the four
dynamic-enable booleans are exactly bits 0 (inputs), 1 (outputs),
2 (cell-deps) and 3 (header-deps) of the byte. -/
theorem c8_parse_otx_flag_bits (v : Nat) (hv : v < 256) :
    parse_otx_flag v =
      if v &&& 0xF0 ≠ 0 then .error .InvalidOtxFlag
      else .ok ⟨v.testBit 0, v.testBit 1, v.testBit 2, v.testBit 3⟩ := by
  revert v hv
  decide

/-- Witness for C8 at the concrete flag bytes 0x13 (invalid) and 0x0A
(valid, enabling dynamic outputs and header-deps). -/
theorem c8_parse_otx_flag_bits_witness :
    parse_otx_flag 0x13 = .error .InvalidOtxFlag
      ∧ parse_otx_flag 0x0A = .ok ⟨false, true, false, true⟩ := by
  constructor
  · rw [c8_parse_otx_flag_bits 0x13 (by decide)]; decide
  · rw [c8_parse_otx_flag_bits 0x0A (by decide)]; decide

/-- C9: confirmed.  `fetch_message` returns `Ok(None)` when no witness decodes
as `SighashAll`, `Ok(Some m)` (the unique such message) when exactly one does,
and `Err(WrongWitnessLayout)` when two or more do. -/
theorem c9_fetch_message_multiplicity (ws : List ClassifiedWitness) :
    fetch_message ws =
      if ws.countP (fun w => (sighash_message w).isSome) = 0 then .ok none
      else if ws.countP (fun w => (sighash_message w).isSome) = 1 then
        .ok (sighash_messages ws).head?
      else .error .WrongWitnessLayout := by
  have hlen : (sighash_messages ws).length
      = ws.countP (fun w => (sighash_message w).isSome) := by
    induction ws with
    | nil => rfl
    | cons w rest ih =>
      cases hw : sighash_message w <;>
        simp [sighash_messages, List.filterMap_cons, hw, List.countP_cons, ih] <;>
        simp [sighash_messages] at ih <;> omega
  rw [← hlen]
  unfold fetch_message
  cases hm : sighash_messages ws with
  | nil => simp [hm]
  | cons m tail =>
    cases tail with
    | nil => simp [hm]
    | cons m2 rest2 => simp [hm]

/-- C10: confirmed (implicit behavior).  The syscall scanner `fetch_otx_start`
rejects a lone `OtxStart` with no following `Otx` only when it sits at witness
index 0 (`WrongOtxStart`); at any positive index, a lone `OtxStart` with zero
following `Otx` entries is accepted, because the `end_index > 0` final test is
the sole enforcement of the "followed by at least one Otx" rule. -/
theorem c10_fetch_otx_start_positional_asymmetry :
    (∀ (s : OtxStartData) (post : List ClassifiedWitness),
        (∀ w ∈ post, neutralW w = true) →
        fetch_otx_start (some (.otxStart s) :: post) = .error .WrongOtxStart)
      ∧ (∀ (s : OtxStartData) (pre post : List ClassifiedWitness),
        (∀ w ∈ pre, neutralW w = true) → (∀ w ∈ post, neutralW w = true) →
        pre ≠ [] →
        fetch_otx_start (pre ++ some (.otxStart s) :: post) = .ok (s, pre.length)) := by
  constructor
  · intro s post hpost
    have h1 : fetchOtxStartGo (some (.otxStart s) :: post) 0 none 0
        = .ok (some (s, 0), 0) := by
      show fetchOtxStartGo post 1 (some (s, 0)) 0 = _
      exact fetchGo_neutral post hpost 1 (some (s, 0)) 0
    unfold fetch_otx_start
    rw [h1]
    rfl
  · intro s pre post hpre hpost hne
    have h1 : fetchOtxStartGo (pre ++ some (.otxStart s) :: post) 0 none 0
        = .ok (some (s, pre.length), pre.length) := by
      rw [fetchGo_neutral_walk pre hpre (some (.otxStart s) :: post) 0 none 0]
      show fetchOtxStartGo post (0 + pre.length + 1) (some (s, 0 + pre.length))
        (0 + pre.length) = _
      rw [fetchGo_neutral post hpost]
      simp
    unfold fetch_otx_start
    rw [h1]
    have hpos : 0 < pre.length := List.length_pos.mpr hne
    simp [hpos]

/-- Witness for C10: a lone `OtxStart` at index 0 is rejected while the same
`OtxStart` preceded by one undecodable witness (index 1) is accepted. -/
theorem c10_fetch_otx_start_positional_asymmetry_witness :
    fetch_otx_start [some (.otxStart ⟨0, 0, 0, 0⟩)] = .error .WrongOtxStart
      ∧ fetch_otx_start [none, some (.otxStart ⟨0, 0, 0, 0⟩)] = .ok (⟨0, 0, 0, 0⟩, 1) := by
  constructor
  · exact c10_fetch_otx_start_positional_asymmetry.1 ⟨0, 0, 0, 0⟩ [] (by simp)
  · exact c10_fetch_otx_start_positional_asymmetry.2 ⟨0, 0, 0, 0⟩ [none] []
      (by simp [neutralW, isOtxW, isOtxStartW]) (by simp) (by simp)

/-- C5: confirmed.  For every classified witness sequence with no `OtxStart`
witness (and at least one decoded witness, so cobuild is activated), the OTX
start scan reports "no OTX" without an error, and `cobuild_entry` runs the
whole-transaction path once and reports handled (`Ok (true, ..)`) when that
path succeeds. -/
theorem c5_no_otx_start_falls_back_to_normal (tx : Tx) (csh : Hash)
    (v : Verifier) (log : List (Seal × SMH))
    (hact : tx.witnesses.any (fun w => w.isSome) = true)
    (hnostart : ∀ w ∈ tx.witnesses, isOtxStartW w = false)
    (hnormal : cobuild_normal_entry tx (cache_script_hashes tx) v = .ok log) :
    fetch_otx_start_lazy tx.witnesses = .ok none
      ∧ cobuild_entry tx csh v = .ok (true, log) := by
  have hfetch : fetch_otx_start_lazy tx.witnesses = .ok none :=
    fetchLazyGo_no_start tx.witnesses hnostart 0 none
  refine ⟨hfetch, ?_⟩
  simp [cobuild_entry, hact, hfetch, hnormal]

/-- Witness for C5 at the concrete transaction `txW5` (a lone
`SighashAllOnly` witness): the scanner reports no OTX and the run is handled
with a single whole-transaction verifier invocation. -/
theorem c5_no_otx_start_falls_back_to_normal_witness :
    fetch_otx_start_lazy txW5.witnesses = .ok none
      ∧ cobuild_entry txW5 [1] okVerifier = .ok (true, [([7], .sighashDigest none)]) :=
  c5_no_otx_start_falls_back_to_normal txW5 [1] okVerifier
    [([7], .sighashDigest none)] rfl (by decide) rfl

/-- C6: confirmed.  Contiguity of the OTX run is enforced: (1) in the syscall
scanner, an `Otx` with no preceding `OtxStart` and (2) an `Otx` separated from
the run by a gap of neutral witnesses both yield `WrongWitnessLayout`; in
`cobuild_entry`, (3) an `Otx` before the `OtxStart` and (4) an `Otx` after a
run-interrupting undecodable witness both yield `WrongWitnessLayout`; and (5)
for an `OtxStart` immediately followed by a non-`Otx` decodable witness the
loop stops with an empty run and the post-loop stray-`Otx` check does not
fire. -/
theorem c6_otx_contiguity_enforced :
    (∀ (o : OtxData) (pre rest : List ClassifiedWitness),
        (∀ w ∈ pre, neutralW w = true) →
        fetch_otx_start (pre ++ some (.otx o) :: rest) = .error .WrongWitnessLayout)
      ∧ (∀ (s : OtxStartData) (o : OtxData) (pre mid rest : List ClassifiedWitness),
        (∀ w ∈ pre, neutralW w = true) → (∀ w ∈ mid, neutralW w = true) →
        mid ≠ [] →
        fetch_otx_start (pre ++ some (.otxStart s) :: (mid ++ some (.otx o) :: rest))
          = .error .WrongWitnessLayout)
      ∧ (∀ (ilh : List Hash) (ith oth : List (Option Hash)) (cdl hdl : Nat)
        (gre : Bool) (gfw : ClassifiedWitness) (csh : Hash) (v : Verifier)
        (s : OtxStartData) (o : OtxData),
        cobuild_entry ⟨ilh, ith, oth, cdl, hdl,
          [some (.otx o), some (.otxStart s)], gre, gfw⟩ csh v
          = .error .WrongWitnessLayout)
      ∧ (∀ (ilh : List Hash) (ith oth : List (Option Hash)) (cdl hdl : Nat)
        (gre : Bool) (gfw : ClassifiedWitness) (csh : Hash) (v : Verifier)
        (s : OtxStartData) (o : OtxData),
        cobuild_entry ⟨ilh, ith, oth, cdl, hdl,
          [some (.otxStart s), none, some (.otx o)], gre, gfw⟩ csh v
          = .error .WrongWitnessLayout)
      ∧ (∀ (tx : Tx) (cache : Cache) (csh : Hash) (v : Verifier)
        (st : CobuildState) (i : Nat) (m : Message) (sl : Seal) (s : OtxStartData),
        otxLoop tx cache csh v [some (.sighashAll m sl)] i st = .ok ⟨st, i, [], []⟩
          ∧ stray_otx_exists [some (.otxStart s), some (.sighashAll m sl)] 0 2 = false) := by
  refine ⟨?_, ?_, ?_, ?_, ?_⟩
  · intro o pre rest hpre
    have h1 : fetchOtxStartGo (pre ++ some (.otx o) :: rest) 0 none 0
        = .error .WrongWitnessLayout := by
      rw [fetchGo_neutral_walk pre hpre _ 0 none 0]
      simp [fetchOtxStartGo]
    unfold fetch_otx_start
    rw [h1]
  · intro s o pre mid rest hpre hmid hmidne
    have h1 : fetchOtxStartGo
        (pre ++ some (.otxStart s) :: (mid ++ some (.otx o) :: rest)) 0 none 0
        = .error .WrongWitnessLayout := by
      rw [fetchGo_neutral_walk pre hpre _ 0 none 0]
      show fetchOtxStartGo (mid ++ some (.otx o) :: rest) (0 + pre.length + 1)
        (some (s, 0 + pre.length)) (0 + pre.length) = _
      rw [fetchGo_neutral_walk mid hmid _ _ _ _]
      have hmlen : 0 < mid.length := List.length_pos.mpr hmidne
      have hcond : ((0 + pre.length + 1 : Nat) != 0 + pre.length + 1 + mid.length)
          = true := by
        simp only [bne_iff_ne, ne_eq]
        omega
      simp [fetchOtxStartGo, hcond]
      exact fun hx => absurd hx hmidne
    unfold fetch_otx_start
    rw [h1]
  · intro ilh ith oth cdl hdl gre gfw csh v s o
    rfl
  · intro ilh ith oth cdl hdl gre gfw csh v s o
    rfl
  · intro tx cache csh v st i m sl s
    exact ⟨rfl, rfl⟩

/-- Witness for C6 at concrete inputs: a stray `Otx` after an undecodable
witness at scanner level, a gapped `Otx` after `OtxStart`, an `Otx` before the
`OtxStart` and after an interrupting `none` in `cobuild_entry`, and the
empty-run no-misfire case. -/
theorem c6_otx_contiguity_enforced_witness :
    fetch_otx_start [none, some (.otx o3)] = .error .WrongWitnessLayout
      ∧ fetch_otx_start [some (.otxStart ⟨0, 0, 0, 0⟩), none, some (.otx o3)]
          = .error .WrongWitnessLayout
      ∧ cobuild_entry ⟨[], [], [], 0, 0,
          [some (.otx o3), some (.otxStart ⟨0, 0, 0, 0⟩)], true, none⟩ [1] okVerifier
          = .error .WrongWitnessLayout
      ∧ cobuild_entry ⟨[], [], [], 0, 0,
          [some (.otxStart ⟨0, 0, 0, 0⟩), none, some (.otx o3)], true, none⟩ [1] okVerifier
          = .error .WrongWitnessLayout
      ∧ (otxLoop tx3 [] [1] okVerifier [some (.sighashAll ⟨[]⟩ [])] 3 st0c
            = .ok ⟨st0c, 3, [], []⟩
          ∧ stray_otx_exists
              [some (.otxStart ⟨0, 0, 0, 0⟩), some (.sighashAll ⟨[]⟩ [])] 0 2 = false) :=
  ⟨c6_otx_contiguity_enforced.1 o3 [none] [] (by decide),
    c6_otx_contiguity_enforced.2.1 ⟨0, 0, 0, 0⟩ o3 [] [none] [] (by decide)
      (by decide) (by decide),
    c6_otx_contiguity_enforced.2.2.1 [] [] [] 0 0 true none [1] okVerifier
      ⟨0, 0, 0, 0⟩ o3,
    c6_otx_contiguity_enforced.2.2.2.1 [] [] [] 0 0 true none [1] okVerifier
      ⟨0, 0, 0, 0⟩ o3,
    c6_otx_contiguity_enforced.2.2.2.2 tx3 [] [1] okVerifier st0c 3 ⟨[]⟩ []
      ⟨0, 0, 0, 0⟩⟩

/-- C7 (amended): every `Otx` processed by `cobuild_entry` whose flag byte is
valid (high nibble clear) and whose four fixed counts are all zero fails the
run with `WrongCount`, regardless of the four dynamic counts; with an invalid
flag byte the run instead fails earlier with `InvalidOtxFlag` (see the
counterexample). -/
theorem c7_all_fixed_zero_yields_wrong_count (tx : Tx) (csh : Hash)
    (v : Verifier) (s : OtxStartData) (o : OtxData)
    (rest : List ClassifiedWitness)
    (hw : tx.witnesses = some (.otxStart s) :: some (.otx o) :: rest)
    (hrest : ∀ w ∈ rest, isOtxStartW w = false)
    (hflag : o.flag &&& 0xF0 = 0)
    (h1 : o.fixed_input_cells = 0) (h2 : o.fixed_output_cells = 0)
    (h3 : o.fixed_cell_deps = 0) (h4 : o.fixed_header_deps = 0) :
    cobuild_entry tx csh v = .error .WrongCount := by
  have hfetch : fetch_otx_start_lazy (some (.otxStart s) :: some (.otx o) :: rest)
      = .ok (some (s, 0)) := by
    show fetchLazyGo rest 2 (some (s, 0)) = _
    exact fetchLazyGo_no_start rest hrest 2 (some (s, 0))
  have hstep : ∀ st, otxStep tx (cache_script_hashes tx) csh v o st
      = .error .WrongCount := by
    intro st
    simp [otxStep, parse_otx_flag, hflag, h1, h2, h3, h4]
  simp [cobuild_entry, hw, hfetch, hstep, otxLoop]

/-- Witness for C7 at the concrete transaction `tx7b`, whose only OTX has a
valid flag (0x0F), all fixed counts zero and all dynamic counts nonzero. -/
theorem c7_all_fixed_zero_yields_wrong_count_witness :
    cobuild_entry tx7b [2] okVerifier = .error .WrongCount :=
  c7_all_fixed_zero_yields_wrong_count tx7b [2] okVerifier ⟨0, 0, 0, 0⟩ o7b []
    rfl (by decide) (by decide) rfl rfl rfl rfl

/-- Whatever branch a successful `otxStep` takes, the resulting state is the
fixed+dynamic advancement and the recorded range is the claimed range. -/
theorem otxStep_ok_shape {tx : Tx} {cache : Cache} {csh : Hash} {v : Verifier}
    {o : OtxData} {st : CobuildState} {st1 : CobuildState}
    {inv : List (Seal × SMH)} {rng : OtxSigningRange}
    (h : otxStep tx cache csh v o st = .ok (st1, inv, rng)) :
    st1 = advanceState st o ∧ rng = claimedRange st o := by
  unfold otxStep at h
  split at h
  · exact absurd h (by simp)
  · split at h
    · exact absurd h (by simp)
    · split at h
      · exact absurd h (by simp)
      · split at h
        · simp only [Except.ok.injEq, Prod.mk.injEq] at h
          exact ⟨h.1.symm, h.2.2.symm⟩
        · split at h
          · exact absurd h (by simp)
          · split at h
            · exact absurd h (by simp)
            · simp only [Except.ok.injEq, Prod.mk.injEq] at h
              exact ⟨h.1.symm, h.2.2.symm⟩

theorem sumAdvI_cons (w : ClassifiedWitness) (ws : List ClassifiedWitness) :
    sumAdvI (w :: ws) = advI w + sumAdvI ws := by
  simp [sumAdvI]

theorem sumAdvO_cons (w : ClassifiedWitness) (ws : List ClassifiedWitness) :
    sumAdvO (w :: ws) = advO w + sumAdvO ws := by
  simp [sumAdvO]

theorem sumAdvC_cons (w : ClassifiedWitness) (ws : List ClassifiedWitness) :
    sumAdvC (w :: ws) = advC w + sumAdvC ws := by
  simp [sumAdvC]

theorem sumAdvH_cons (w : ClassifiedWitness) (ws : List ClassifiedWitness) :
    sumAdvH (w :: ws) = advH w + sumAdvH ws := by
  simp [sumAdvH]

/-- Invariant of the `cobuild_entry` loop: in an error-free run in which no
`u32` cursor addition wraps, the four cursors never decrease, and the claimed
ranges form adjacent chains starting at the initial cursor values. -/
theorem otxLoop_mono_chain (tx : Tx) (cache : Cache) (csh : Hash) (v : Verifier) :
    ∀ (ws : List ClassifiedWitness) (i : Nat) (st : CobuildState) (res : LoopResult),
      otxLoop tx cache csh v ws i st = .ok res →
      st.input_end + sumAdvI ws < 4294967296 →
      st.output_end + sumAdvO ws < 4294967296 →
      st.cell_dep_end + sumAdvC ws < 4294967296 →
      st.header_dep_end + sumAdvH ws < 4294967296 →
      (st.input_end ≤ res.state.input_end
          ∧ st.output_end ≤ res.state.output_end
          ∧ st.cell_dep_end ≤ res.state.cell_dep_end
          ∧ st.header_dep_end ≤ res.state.header_dep_end)
        ∧ chain1 st.input_end
            (res.claimed.map fun r => (r.input_start, r.inputs_count))
        ∧ chain1 st.output_end
            (res.claimed.map fun r => (r.output_start, r.outputs_count))
        ∧ chain1 st.cell_dep_end
            (res.claimed.map fun r => (r.cell_dep_start, r.cell_deps_count))
        ∧ chain1 st.header_dep_end
            (res.claimed.map fun r => (r.header_dep_start, r.header_deps_count)) := by
  intro ws
  induction ws with
  | nil =>
    intro i st res h hI hO hC hH
    obtain rfl : (⟨st, i - 1, [], []⟩ : LoopResult) = res := by
      simpa [otxLoop] using h
    exact ⟨⟨le_refl _, le_refl _, le_refl _, le_refl _⟩,
      trivial, trivial, trivial, trivial⟩
  | cons w rest ih =>
    intro i st res h hI hO hC hH
    have hbreak : (⟨st, i, [], []⟩ : LoopResult) = res →
        (st.input_end ≤ res.state.input_end
            ∧ st.output_end ≤ res.state.output_end
            ∧ st.cell_dep_end ≤ res.state.cell_dep_end
            ∧ st.header_dep_end ≤ res.state.header_dep_end)
          ∧ chain1 st.input_end
              (res.claimed.map fun r => (r.input_start, r.inputs_count))
          ∧ chain1 st.output_end
              (res.claimed.map fun r => (r.output_start, r.outputs_count))
          ∧ chain1 st.cell_dep_end
              (res.claimed.map fun r => (r.cell_dep_start, r.cell_deps_count))
          ∧ chain1 st.header_dep_end
              (res.claimed.map fun r => (r.header_dep_start, r.header_deps_count)) := by
      rintro rfl
      exact ⟨⟨le_refl _, le_refl _, le_refl _, le_refl _⟩,
        trivial, trivial, trivial, trivial⟩
    match w with
    | none => exact hbreak (by simpa [otxLoop] using h)
    | some (.sighashAll m sl) => exact hbreak (by simpa [otxLoop] using h)
    | some (.sighashAllOnly sl) => exact hbreak (by simpa [otxLoop] using h)
    | some (.otxStart s) => exact hbreak (by simpa [otxLoop] using h)
    | some (.otx o) =>
      rw [sumAdvI_cons] at hI
      rw [sumAdvO_cons] at hO
      rw [sumAdvC_cons] at hC
      rw [sumAdvH_cons] at hH
      simp only [advI, advO, advC, advH] at hI hO hC hH
      cases hstep : otxStep tx cache csh v o st with
      | error e =>
        have hval : otxLoop tx cache csh v (some (.otx o) :: rest) i st = .error e := by
          simp only [otxLoop, hstep]
        rw [hval] at h
        simp at h
      | ok trip =>
        obtain ⟨st1, inv, rng⟩ := trip
        obtain ⟨hst1, hrng⟩ := otxStep_ok_shape hstep
        subst hst1
        subst hrng
        cases hrec : otxLoop tx cache csh v rest (i + 1) (advanceState st o) with
        | error e =>
          have hval : otxLoop tx cache csh v (some (.otx o) :: rest) i st = .error e := by
            simp only [otxLoop, hstep, hrec]
          rw [hval] at h
          simp at h
        | ok r1 =>
          have hval : otxLoop tx cache csh v (some (.otx o) :: rest) i st
              = .ok ⟨r1.state, r1.endIdx, claimedRange st o :: r1.claimed,
                  inv ++ r1.log⟩ := by
            simp only [otxLoop, hstep, hrec]
          rw [hval] at h
          simp only [Except.ok.injEq] at h
          subst h
          have hfdI : u32add o.fixed_input_cells o.dynamic_input_cells
              = o.fixed_input_cells + o.dynamic_input_cells := u32add_eq (by omega)
          have hfdO : u32add o.fixed_output_cells o.dynamic_output_cells
              = o.fixed_output_cells + o.dynamic_output_cells := u32add_eq (by omega)
          have hfdC : u32add o.fixed_cell_deps o.dynamic_cell_deps
              = o.fixed_cell_deps + o.dynamic_cell_deps := u32add_eq (by omega)
          have hfdH : u32add o.fixed_header_deps o.dynamic_header_deps
              = o.fixed_header_deps + o.dynamic_header_deps := u32add_eq (by omega)
          have hIe : (advanceState st o).input_end
              = st.input_end + (o.fixed_input_cells + o.dynamic_input_cells) := by
            show u32add st.input_end (u32add o.fixed_input_cells o.dynamic_input_cells) = _
            rw [hfdI, u32add_eq (by omega)]
          have hOe : (advanceState st o).output_end
              = st.output_end + (o.fixed_output_cells + o.dynamic_output_cells) := by
            show u32add st.output_end (u32add o.fixed_output_cells o.dynamic_output_cells) = _
            rw [hfdO, u32add_eq (by omega)]
          have hCe : (advanceState st o).cell_dep_end
              = st.cell_dep_end + (o.fixed_cell_deps + o.dynamic_cell_deps) := by
            show u32add st.cell_dep_end (u32add o.fixed_cell_deps o.dynamic_cell_deps) = _
            rw [hfdC, u32add_eq (by omega)]
          have hHe : (advanceState st o).header_dep_end
              = st.header_dep_end + (o.fixed_header_deps + o.dynamic_header_deps) := by
            show u32add st.header_dep_end (u32add o.fixed_header_deps o.dynamic_header_deps) = _
            rw [hfdH, u32add_eq (by omega)]
          obtain ⟨⟨m1, m2, m3, m4⟩, c1, c2, c3, c4⟩ :=
            ih (i + 1) (advanceState st o) r1 hrec
              (by rw [hIe]; omega) (by rw [hOe]; omega)
              (by rw [hCe]; omega) (by rw [hHe]; omega)
          refine ⟨⟨?_, ?_, ?_, ?_⟩, ?_, ?_, ?_, ?_⟩
          · exact le_trans (by rw [hIe]; omega) m1
          · exact le_trans (by rw [hOe]; omega) m2
          · exact le_trans (by rw [hCe]; omega) m3
          · exact le_trans (by rw [hHe]; omega) m4
          · refine ⟨rfl, ?_⟩
            show chain1 ((claimedRange st o).input_start + (claimedRange st o).inputs_count) _
            have : (claimedRange st o).input_start + (claimedRange st o).inputs_count
                = (advanceState st o).input_end := by
              show st.input_end + u32add o.fixed_input_cells o.dynamic_input_cells = _
              rw [hfdI, hIe]
            rw [this]
            exact c1
          · refine ⟨rfl, ?_⟩
            show chain1 ((claimedRange st o).output_start + (claimedRange st o).outputs_count) _
            have : (claimedRange st o).output_start + (claimedRange st o).outputs_count
                = (advanceState st o).output_end := by
              show st.output_end + u32add o.fixed_output_cells o.dynamic_output_cells = _
              rw [hfdO, hOe]
            rw [this]
            exact c2
          · refine ⟨rfl, ?_⟩
            show chain1 ((claimedRange st o).cell_dep_start + (claimedRange st o).cell_deps_count) _
            have : (claimedRange st o).cell_dep_start + (claimedRange st o).cell_deps_count
                = (advanceState st o).cell_dep_end := by
              show st.cell_dep_end + u32add o.fixed_cell_deps o.dynamic_cell_deps = _
              rw [hfdC, hCe]
            rw [this]
            exact c3
          · refine ⟨rfl, ?_⟩
            show chain1 ((claimedRange st o).header_dep_start + (claimedRange st o).header_deps_count) _
            have : (claimedRange st o).header_dep_start + (claimedRange st o).header_deps_count
                = (advanceState st o).header_dep_end := by
              show st.header_dep_end + u32add o.fixed_header_deps o.dynamic_header_deps = _
              rw [hfdH, hHe]
            rw [this]
            exact c4

/-- Every element of an adjacent chain starts at or after the chain origin. -/
theorem chain1_le_of_mem :
    ∀ (l : List (Nat × Nat)) (c : Nat), chain1 c l → ∀ p ∈ l, c ≤ p.1 := by
  intro l
  induction l with
  | nil => intro c _ p hp; cases hp
  | cons q rest ih =>
    intro c hc p hp
    obtain ⟨hq, hrest⟩ := hc
    rcases List.mem_cons.mp hp with rfl | hp2
    · omega
    · have := ih (q.1 + q.2) hrest p hp2
      omega

/-- An adjacent chain of intervals is pairwise disjoint: every earlier
interval ends at or before every later interval starts. -/
theorem chain1_pairwise :
    ∀ (l : List (Nat × Nat)) (c : Nat), chain1 c l →
      l.Pairwise (fun p q => p.1 + p.2 ≤ q.1) := by
  intro l
  induction l with
  | nil => intro c _; exact List.Pairwise.nil
  | cons q rest ih =>
    intro c hc
    obtain ⟨hq, hrest⟩ := hc
    exact List.Pairwise.cons
      (fun p hp => chain1_le_of_mem rest (q.1 + q.2) hrest p hp) (ih _ hrest)

/-- C3 (amended): for every error-free run of the `cobuild_entry` OTX loop in
which no `u32` cursor addition overflows, each of the four cursors is
non-decreasing, and the index ranges claimed by successive `Otx` witnesses are
pairwise disjoint in all four categories.  Both restrictions relative to the
original claim are forced by `c3_final_cursor_exceeds_length`: an error-free
run may leave a cursor beyond the array length, and an error-free run with an
overflowing `u32` addition may wrap a cursor downward, defeating monotonicity
(and with it the disjointness guarantee for the wrapped range). -/
theorem c3_cursors_monotone_ranges_disjoint (tx : Tx) (cache : Cache)
    (csh : Hash) (v : Verifier) (ws : List ClassifiedWitness) (i : Nat)
    (st : CobuildState) (res : LoopResult)
    (hok : otxLoop tx cache csh v ws i st = .ok res)
    (hI : st.input_end + sumAdvI ws < 4294967296)
    (hO : st.output_end + sumAdvO ws < 4294967296)
    (hC : st.cell_dep_end + sumAdvC ws < 4294967296)
    (hH : st.header_dep_end + sumAdvH ws < 4294967296) :
    (st.input_end ≤ res.state.input_end
        ∧ st.output_end ≤ res.state.output_end
        ∧ st.cell_dep_end ≤ res.state.cell_dep_end
        ∧ st.header_dep_end ≤ res.state.header_dep_end)
      ∧ (res.claimed.map fun r => (r.input_start, r.inputs_count)).Pairwise
          (fun p q => p.1 + p.2 ≤ q.1)
      ∧ (res.claimed.map fun r => (r.output_start, r.outputs_count)).Pairwise
          (fun p q => p.1 + p.2 ≤ q.1)
      ∧ (res.claimed.map fun r => (r.cell_dep_start, r.cell_deps_count)).Pairwise
          (fun p q => p.1 + p.2 ≤ q.1)
      ∧ (res.claimed.map fun r => (r.header_dep_start, r.header_deps_count)).Pairwise
          (fun p q => p.1 + p.2 ≤ q.1) := by
  obtain ⟨hmono, h1, h2, h3, h4⟩ :=
    otxLoop_mono_chain tx cache csh v ws i st res hok hI hO hC hH
  exact ⟨hmono, chain1_pairwise _ _ h1, chain1_pairwise _ _ h2,
    chain1_pairwise _ _ h3, chain1_pairwise _ _ h4⟩

/-- Witness for the amended C3 at the concrete two-OTX run `ws3`: the input
cursor grows from 0 to 10 and the two claimed input ranges `[0,5)`, `[5,10)`
are disjoint. -/
theorem c3_cursors_monotone_ranges_disjoint_witness :
    st0c.input_end ≤ lr3.state.input_end
      ∧ (lr3.claimed.map fun r => (r.input_start, r.inputs_count)).Pairwise
          (fun p q => p.1 + p.2 ≤ q.1) := by
  have h := c3_cursors_monotone_ranges_disjoint tx3 (cache_script_hashes tx3)
    [9] okVerifier ws3 1 st0c lr3 rfl (by decide) (by decide) (by decide) (by decide)
  exact ⟨h.1.1, h.2.1⟩

/-- C3: counterexample to two conjuncts of the claim as stated.  Length
bound: in `tx3` the single OTX declares 5 fixed inputs while the transaction
has only 1 input; the current script hash `[9]` is absent, the run completes
without error, yet the final input cursor is 5 > 1.  Monotonicity: in `txOv`
the third OTX declares 2^32 - 5 fixed inputs, the `u32` advance wraps the
input cursor from 10 down to 5 within one error-free iteration (middle
conjunct), and the whole `cobuild_entry` run still completes with
`Ok (true, [])` (last conjunct). -/
theorem c3_final_cursor_exceeds_length :
    (otxLoop tx3 (cache_script_hashes tx3) [9] okVerifier
        (tx3.witnesses.drop 1) 1 ⟨0, 0, 0, 0, 0, 0⟩ =
      .ok ⟨⟨0, 0, 5, 0, 0, 0⟩, 1, [⟨0, 5, 0, 0, 0, 0, 0, 0⟩], []⟩
      ∧ tx3.input_lock_hashes.length = 1
      ∧ cobuild_entry tx3 [9] okVerifier = .ok (true, []))
      ∧ (otxLoop txOv (cache_script_hashes txOv) [9] okVerifier
            [some (.otx oOv)] 3 ⟨0, 0, 10, 0, 0, 0⟩ =
          .ok ⟨⟨0, 0, 5, 0, 0, 0⟩, 3, [⟨10, 4294967291, 0, 0, 0, 0, 0, 0⟩], []⟩
        ∧ (5 : Nat) < 10)
      ∧ (otxLoop txOv (cache_script_hashes txOv) [9] okVerifier
            (txOv.witnesses.drop 1) 1 ⟨0, 0, 0, 0, 0, 0⟩ =
          .ok ⟨⟨0, 0, 5, 0, 0, 0⟩, 3,
            [⟨0, 5, 0, 0, 0, 0, 0, 0⟩, ⟨5, 5, 0, 0, 0, 0, 0, 0⟩,
              ⟨10, 4294967291, 0, 0, 0, 0, 0, 0⟩], []⟩
        ∧ cobuild_entry txOv [9] okVerifier = .ok (true, [])) :=
  ⟨⟨rfl, rfl, rfl⟩, ⟨rfl, by decide⟩, ⟨rfl, rfl⟩⟩

end Cobuild
